import Mathlib

/-!
Shallow embedding of `src/engine/memory.rs` (igweo/DOOM-RUST), a fixed-arena
tag-based zone allocator in the style of DOOM's `z_zone`.

The Rust source defines the `PurgeTag` enum, its `TryFrom<u8>` conversion, the
`Block` / `BlockMetaData` node types, and a `MemoryAllocator` whose `init`
returns a single fresh block and whose `allocate` is a stub that ignores its
arguments and returns `Block::new()`.  `free`, `change_tag` and `purge` are
only described in the repository's design documentation; the corresponding
definitions below are marked `Modelled from the spec:`.

Machine integers: every integer in the source is a `u8` (tag values, block
sizes) or a `usize` index.  No arithmetic is ever performed on them in the
source, so they are embedded as `Nat`; where a claim quantifies over all
`u8` values we quantify over `Fin 256`.
-/

set_option maxRecDepth 10000

namespace DoomZone

/-- The `PurgeTag` enum (memory.rs lines 4-14): classification of why a block
is held.  The source comment splits the variants in two groups: tags < 100
are not overwritten until freed, tags >= 100 are purged when memory is
needed. -/
inductive PurgeTag where
  | puStatic
  | puSound
  | puMusic
  | puLevel
  | puLevlSpec
  | puPurgeLevel
  | puCache
  deriving DecidableEq

/-- The numeric discriminant of each `PurgeTag` variant, exactly as written in
the Rust enum: 1, 2, 3, 50, 51, 100, 101. -/
def PurgeTag.value : PurgeTag → Nat
  | .puStatic => 1
  | .puSound => 2
  | .puMusic => 3
  | .puLevel => 50
  | .puLevlSpec => 51
  | .puPurgeLevel => 100
  | .puCache => 101

/-- Eligibility for automatic eviction, following the grouping of the two
source comments: the variants listed under `Tags >= 100 are purged when
memory is needed` are purgeable, the variants under `Tags < 100 are not
overwritten until freed` are not. -/
def PurgeTag.isPurgeable : PurgeTag → Bool
  | .puPurgeLevel => true
  | .puCache => true
  | _ => false

/-- `impl TryFrom<u8> for PurgeTag` (memory.rs lines 16-30): the seven listed
discriminants map to their variants, every other value is `Err(())`. -/
def PurgeTag.tryFrom (value : Nat) : Except Unit PurgeTag :=
  match value with
  | 1 => .ok .puStatic
  | 2 => .ok .puSound
  | 3 => .ok .puMusic
  | 50 => .ok .puLevel
  | 51 => .ok .puLevlSpec
  | 100 => .ok .puPurgeLevel
  | 101 => .ok .puCache
  | _ => .error ()

instance : DecidableEq (Except Unit PurgeTag) := fun a b =>
  match a, b with
  | .ok x, .ok y =>
    if h : x = y then .isTrue (by rw [h]) else .isFalse (by simp [h])
  | .ok _, .error _ => .isFalse (by simp)
  | .error _, .ok _ => .isFalse (by simp)
  | .error x, .error y => .isTrue (by rw [Unit.ext x y])

/-- `BlockMetaData` (memory.rs lines 71-74): the block's classification
(`None` means free) and its size in bytes (a `u8`). -/
structure BlockMetaData where
  tag : Option PurgeTag
  size : Nat
  deriving DecidableEq

/-- `BlockMetaData::new` (memory.rs lines 76-80). -/
def BlockMetaData.new (tag : Option PurgeTag) (size : Nat) : BlockMetaData :=
  { tag := tag, size := size }

/-- A `Block` (memory.rs lines 45-50): a node of the doubly linked list.  The
`next`/`prev` fields are `Rc<RefCell<Option<Block>>>` in the source; every
code path creates them as fresh cells holding `None` and no code path ever
assigns or reads them, so they are embedded as optional node indices (the
index representation the design notes suggest).  `data` is the fixed
`[u8; 64]` payload. -/
structure Block where
  next : Option Nat
  prev : Option Nat
  metadata : BlockMetaData
  data : List Nat
  deriving DecidableEq

/-- `Block::new` (memory.rs lines 54-65): fresh links, a free (`tag: None`)
metadata of size `SIZE = 64`, and a zeroed 64-byte payload. -/
def Block.new : Block :=
  { next := none
    prev := none
    metadata := { tag := none, size := 64 }
    data := List.replicate 64 0 }

/-- `Block::size` (memory.rs lines 66-68). -/
def Block.size (b : Block) : Nat :=
  b.metadata.size

/-- `b.isFree` holds when the block's tag is `None`, the source's encoding of
a free block. -/
def Block.isFree (b : Block) : Bool :=
  b.metadata.tag.isNone

/-- `MemoryAllocator::init` (memory.rs lines 98-100): returns `Block::new()`,
a single free block spanning the whole fixed arena. -/
def MemoryAllocator.init : Block :=
  Block.new

/-- `MemoryAllocator::allocate` (memory.rs lines 103-110).  The body is a
stub below a TODO comment describing the intended first-fit/purge/merge
strategy: it ignores both the `block` reference and the requested `size`
and returns `Block::new()`. -/
def MemoryAllocator.allocate (_block : Block) (_size : Nat) : Block :=
  Block.new

/-- The arena capacity fixed by the source: the `SIZE: u8 = 64` constant in
`Block::new`, also the length of every `data` payload. -/
def arenaCapacity : Nat := 64

/-- An allocator state: the blocks in existence, in address order.  The Rust
`MemoryAllocator` is a fieldless struct, so the state is exactly the
collection of `Block` values produced so far. -/
abbrev AllocState := List Block

/-- The state right after `MemoryAllocator::init()`: the single block it
returns. -/
def initState : AllocState :=
  [MemoryAllocator.init]

/-- One `allocate` call at the state level: the caller passes a reference to
an existing block `b` and a size `n`; the call returns
`MemoryAllocator.allocate b n` and that block joins the blocks in
existence. -/
def allocStep (s : AllocState) (b : Block) (n : Nat) : Block × AllocState :=
  (MemoryAllocator.allocate b n, s ++ [MemoryAllocator.allocate b n])

/-- Total number of payload bytes accounted for by the blocks of a state. -/
def sumSizes (s : AllocState) : Nat :=
  (s.map Block.size).sum

/-- The allocator states reachable through the operations the source
implements: `init`, then any sequence of `allocate` calls on existing
blocks. -/
inductive Reachable : AllocState → Prop where
  | init : Reachable initState
  | alloc (s : AllocState) (b : Block) (n : Nat) :
      Reachable s → b ∈ s → Reachable (allocStep s b n).2

/-- The error taxonomy of the design documentation (section 7): `OutOfMemory`,
`InvalidHandle`, `DoubleFree`.  The source's `allocate` returns a bare
`Block` and has no error path at all. -/
inductive ZError where
  | outOfMemory
  | invalidHandle
  | doubleFree
  deriving DecidableEq

/-- Merging one block into its successor: one block whose size is the sum of
the merged blocks' sizes, absorbing the payloads, links spanning both. -/
def combine (a b : Block) : Block :=
  { next := b.next
    prev := a.prev
    metadata := { tag := none, size := a.metadata.size + b.metadata.size }
    data := a.data ++ b.data }

/-- One step of merging: absorb the head of `l` into `a` when both are free
blocks, otherwise keep both. -/
def mergeStep (a : Block) (l : List Block) : List Block :=
  match l with
  | [] => [a]
  | b :: rest => if a.isFree && b.isFree then combine a b :: rest else a :: b :: rest

/-- Exhaustive merging of adjacent free blocks, per the documentation's merge
rule: the allocator never leaves two adjacent free blocks unmerged. -/
def mergeFree : List Block → List Block
  | [] => []
  | a :: rest => mergeStep a (mergeFree rest)

/-- Eviction of one block under a purge threshold: an in-use block whose
tag's numeric value is at least the threshold becomes free; every other
block is untouched. -/
def evictAt (threshold : Nat) (b : Block) : Block :=
  match b.metadata.tag with
  | none => b
  | some t =>
    if threshold ≤ t.value then
      { b with metadata := { tag := none, size := b.metadata.size } }
    else b

/-- Modelled from the spec: `purge(threshold)` is absent from the source (it
is only named in `allocate`'s TODO comment).  Per the documentation it
evicts every in-use block whose tag's numeric value is at least
`threshold`, merging adjacent free blocks as they are freed, and returns
the count of evicted blocks. -/
def purge (s : AllocState) (threshold : Nat) : AllocState × Nat :=
  (mergeFree (s.map (evictAt threshold)),
   (s.filter (fun b =>
     match b.metadata.tag with
     | some t => decide (threshold ≤ t.value)
     | none => false)).length)

/-- Modelled from the spec: `free(handle)` is absent from the source.  Per
the documentation it marks the referenced block free and merges it with
free neighbours; freeing through a stale handle fails with
`InvalidHandle`, freeing an already-free block fails with `DoubleFree`.
Handles are embedded as indices into the state, per the design notes. -/
def free (s : AllocState) (i : Nat) : Except ZError AllocState :=
  match s[i]? with
  | none => .error .invalidHandle
  | some b =>
    match b.metadata.tag with
    | none => .error .doubleFree
    | some _ =>
      .ok (mergeFree (s.set i { b with metadata := { tag := none, size := b.metadata.size } }))

/-- The state after attempting one `free` call: the new state on success, the
unchanged state when the call returned an error. -/
def runFree (s : AllocState) (i : Nat) : AllocState :=
  match free s i with
  | .ok s' => s'
  | .error _ => s

/-- List of all seven `PurgeTag` variants, in source order. -/
def allTags : List PurgeTag :=
  [.puStatic, .puSound, .puMusic, .puLevel, .puLevlSpec, .puPurgeLevel, .puCache]

/-- A 64-byte block held with the Level tag (numeric value 50), used as a
concrete input. -/
def blkLevel : Block :=
  { next := none
    prev := none
    metadata := { tag := some .puLevel, size := 64 }
    data := List.replicate 64 0 }

/-- A tagged (in-use) block already in `l` survives a `mergeStep`: only free
blocks are ever combined. -/
theorem mem_mergeStep_of_tagged (a : Block) (l : List Block) (b : Block)
    (t : PurgeTag) (hmem : b ∈ l) (htag : b.metadata.tag = some t) :
    b ∈ mergeStep a l := by
  match l with
  | [] => cases hmem
  | c :: rest =>
    rw [mergeStep]
    by_cases hfree : a.isFree && c.isFree
    · rw [if_pos hfree]
      have hc : c.metadata.tag = none :=
        Option.isNone_iff_eq_none.mp ((Bool.and_eq_true _ _).mp hfree).2
      rcases List.mem_cons.mp hmem with heq | hmem1
      · rw [heq] at htag; rw [htag] at hc; exact Option.noConfusion hc
      · exact List.mem_cons_of_mem _ hmem1
    · rw [if_neg hfree]
      exact List.mem_cons_of_mem _ hmem

/-- A tagged block at the head position survives a `mergeStep` on itself. -/
theorem head_mem_mergeStep_of_tagged (a : Block) (l : List Block)
    (t : PurgeTag) (htag : a.metadata.tag = some t) :
    a ∈ mergeStep a l := by
  match l with
  | [] => exact List.mem_singleton.mpr rfl
  | c :: rest =>
    rw [mergeStep]
    have ha : a.isFree = false := by
      simp [Block.isFree, htag]
    rw [if_neg (by simp [ha])]
    exact List.mem_cons_self _ _

/-- A tagged (in-use) block is never absorbed by `mergeFree`: merging only
combines adjacent free blocks, so every block carrying `some` tag survives
unchanged. -/
theorem mem_mergeFree_of_tagged (l : List Block) (b : Block) (t : PurgeTag)
    (hmem : b ∈ l) (htag : b.metadata.tag = some t) : b ∈ mergeFree l := by
  induction l with
  | nil => cases hmem
  | cons a rest ih =>
    rw [mergeFree]
    rcases List.mem_cons.mp hmem with heq | hmem1
    · rw [heq]
      exact head_mem_mergeStep_of_tagged a (mergeFree rest) t (heq ▸ htag)
    · exact mem_mergeStep_of_tagged a (mergeFree rest) b t (ih hmem1) htag

/-- Claim C5: `MemoryAllocator::init` produces exactly one block, free
(tag `None`), whose size is the full arena capacity of 64 bytes. -/
theorem init_single_free_block :
    initState = [Block.new] ∧
    initState.length = 1 ∧
    MemoryAllocator.init.metadata.tag = none ∧
    MemoryAllocator.init.size = 64 ∧
    MemoryAllocator.init.size = arenaCapacity ∧
    MemoryAllocator.init.data.length = arenaCapacity := by
  refine ⟨rfl, rfl, rfl, rfl, rfl, by decide⟩

/-- Claim C6: the `PurgeTag` enumeration has exactly the seven members with
numeric values 1, 2, 3, 50, 51, 100, 101, and a tag is eligible for
automatic eviction exactly when its numeric value is at least 100. -/
theorem purgeTag_members_and_threshold :
    allTags.length = 7 ∧
    allTags.Nodup ∧
    (∀ t : PurgeTag, t ∈ allTags) ∧
    allTags.map PurgeTag.value = [1, 2, 3, 50, 51, 100, 101] ∧
    (∀ t : PurgeTag, t.isPurgeable = true ↔ 100 ≤ t.value) := by
  refine ⟨rfl, by decide, fun t => by cases t <;> decide, rfl,
    fun t => by cases t <;> decide⟩

/-- Claim C10: converting any `PurgeTag` to its numeric value and back via
`TryFrom<u8>` returns the same tag, and `try_from(v)` succeeds exactly on
the seven listed values, returning `Err(())` on every other `u8`. -/
theorem purgeTag_tryFrom_roundtrip :
    (∀ t : PurgeTag, PurgeTag.tryFrom t.value = Except.ok t) ∧
    (∀ v : Fin 256,
      PurgeTag.tryFrom v.val = Except.error () ↔
        ¬(v.val = 1 ∨ v.val = 2 ∨ v.val = 3 ∨ v.val = 50 ∨ v.val = 51 ∨
          v.val = 100 ∨ v.val = 101)) := by
  constructor
  · intro t; cases t <;> rfl
  · decide

/-- Claim C1 (code bug, evaluated at the failing input): the source's
`allocate` has no tag parameter and returns a fresh block whose tag field
is `None` (free), never `Some(tag)` as the claim requires. -/
theorem allocate_returns_untagged_block :
    (MemoryAllocator.allocate MemoryAllocator.init 16).metadata.tag = none ∧
    (MemoryAllocator.allocate MemoryAllocator.init 16).metadata.tag ≠
      some PurgeTag.puLevel := by
  exact ⟨rfl, by decide⟩

/-- Claim C2 (code bug, evaluated at the failing input): after `init`,
`allocate(&block, 16)` returns a block of size 64 (not 16) and the state's
sizes are `[64, 64]` (the original block is not shrunk to 48), contradicting
the repository's own test `test_allocator_with_varying_allocation_sizes`. -/
theorem allocate_ignores_requested_size :
    (allocStep initState MemoryAllocator.init 16).1.size = 64 ∧
    (allocStep initState MemoryAllocator.init 16).1.size ≠ 16 ∧
    (allocStep initState MemoryAllocator.init 16).2.map Block.size = [64, 64] := by
  exact ⟨rfl, by decide, rfl⟩

/-- Claim C3 (code bug, evaluated at the failing input): the state reached by
one `allocate` call from the initial state is reachable, yet its blocks'
sizes sum to 128, not the arena capacity 64 — the coverage invariant fails. -/
theorem coverage_invariant_fails :
    Reachable (allocStep initState MemoryAllocator.init 16).2 ∧
    sumSizes (allocStep initState MemoryAllocator.init 16).2 = 128 ∧
    arenaCapacity = 64 := by
  refine ⟨Reachable.alloc initState MemoryAllocator.init 16 Reachable.init ?_, rfl, rfl⟩
  exact List.mem_singleton.mpr rfl

/-- Claim C4 (code bug, evaluated at the failing input): `allocate` returns a
bare `Block` and has no failure path, so `allocate(&block, 100)` on the
64-byte arena with nothing evictable succeeds, returning a fresh free
64-byte block (smaller than the request) instead of `OutOfMemory`. -/
theorem allocate_oversized_succeeds :
    (MemoryAllocator.allocate MemoryAllocator.init 100).size = 64 ∧
    (MemoryAllocator.allocate MemoryAllocator.init 100).metadata.tag = none ∧
    (MemoryAllocator.allocate MemoryAllocator.init 100).size < 100 := by
  exact ⟨rfl, rfl, by decide⟩

/-- Claim C7, counterexample: `purge(50)` reclaims a block tagged Level
(numeric value 50 < 100), turning its tag to `None` and counting one
eviction — so a tag below 100 is reclaimed by `purge`. -/
theorem purge_reclaims_level_block :
    PurgeTag.puLevel.value < 100 ∧
    blkLevel.metadata.tag = some PurgeTag.puLevel ∧
    (purge [blkLevel] 50).1.map (fun b => b.metadata.tag) = [none] ∧
    (purge [blkLevel] 50).2 = 1 := by
  refine ⟨by decide, rfl, ?_, ?_⟩ <;> decide

/-- Claim C7, amended: a block tagged below 100 is never reclaimed by
`allocate` (which leaves every existing block in place), and is never
reclaimed by `purge(threshold)` when the threshold is at least 100
(as in the automatic eviction the documentation describes). -/
theorem no_premature_eviction (s : AllocState) (b : Block) (t : PurgeTag)
    (c : Block) (n : Nat) (threshold : Nat)
    (hmem : b ∈ s) (htag : b.metadata.tag = some t) (hval : t.value < 100)
    (hthr : 100 ≤ threshold) :
    b ∈ (allocStep s c n).2 ∧ b ∈ (purge s threshold).1 := by
  constructor
  · exact List.mem_append_left _ hmem
  · have hev : evictAt threshold b = b := by
      simp only [evictAt, htag]
      rw [if_neg (by omega)]
    have hmap : b ∈ s.map (evictAt threshold) := by
      rw [← hev]
      exact List.mem_map_of_mem _ hmem
    exact mem_mergeFree_of_tagged (s.map (evictAt threshold)) b t hmap htag

/-- Witness for `no_premature_eviction` at a concrete input: a Level-tagged
block survives an `allocate` call and a `purge(100)`. -/
theorem no_premature_eviction_witness :
    blkLevel ∈ (allocStep [blkLevel] blkLevel 8).2 ∧
    blkLevel ∈ (purge [blkLevel] 100).1 :=
  no_premature_eviction [blkLevel] blkLevel PurgeTag.puLevel blkLevel 8 100
    (by decide) rfl (by decide) (by decide)

/-- Claim C8: freeing an already-free block fails with `DoubleFree`, freeing
through a stale (out-of-range) handle fails with `InvalidHandle`, and for
the handle obtained from an `allocate` call, a second `free` on it fails
with `DoubleFree`. -/
theorem free_errors (s : AllocState) (i j : Nat) (b c : Block) (n : Nat)
    (h1 : s[i]? = some b) (h2 : b.metadata.tag = none) (h3 : s.length ≤ j) :
    free s i = Except.error ZError.doubleFree ∧
    free s j = Except.error ZError.invalidHandle ∧
    free (runFree (allocStep s c n).2 s.length) s.length =
      Except.error ZError.doubleFree := by
  have hfree1 : ∀ (l : List Block) (k : Nat) (d : Block), l[k]? = some d →
      d.metadata.tag = none → free l k = Except.error ZError.doubleFree := by
    intro l k d hget htag
    simp only [free, hget, htag]
  refine ⟨hfree1 s i b h1 h2, ?_, ?_⟩
  · simp only [free, List.getElem?_eq_none h3]
  · have hget : ((allocStep s c n).2)[s.length]? = some Block.new := by
      simp only [allocStep, MemoryAllocator.allocate]
      exact List.getElem?_concat_length s Block.new
    have hstep : free (allocStep s c n).2 s.length = Except.error ZError.doubleFree :=
      hfree1 _ _ _ hget rfl
    have hrun : runFree (allocStep s c n).2 s.length = (allocStep s c n).2 := by
      rw [runFree, hstep]
    rw [hrun]
    exact hfree1 _ _ _ hget rfl

/-- Witness for `free_errors` at a concrete input: the initial state, handle
0 (the free initial block), stale handle 1, and the handle from one
`allocate` call. -/
theorem free_errors_witness :
    free initState 0 = Except.error ZError.doubleFree ∧
    free initState 1 = Except.error ZError.invalidHandle ∧
    free (runFree (allocStep initState Block.new 8).2 initState.length)
      initState.length = Except.error ZError.doubleFree :=
  free_errors initState 0 1 MemoryAllocator.init Block.new 8 (by decide) rfl
    (by decide)

/-- Claim C9: an `allocate` call leaves every pre-existing block — including
the block passed by reference — entirely unchanged: the state's prefix of
pre-existing blocks is identical, and the returned block is a fresh
`Block::new()` computed without touching the argument. -/
theorem allocate_frame (s : AllocState) (b : Block) (n : Nat) :
    ((allocStep s b n).2).take s.length = s ∧
    MemoryAllocator.allocate b n = Block.new := by
  constructor
  · rw [allocStep]
    exact List.take_left s [MemoryAllocator.allocate b n]
  · rfl

end DoomZone
